import Mathlib

/-
Shallow embedding of the vscode-agent-fleet status-inference and
change-tracking core: the hook-event status state machine
(hookWatcher.ts, agentTreeProvider.ts), the event-file ingestion
pipeline (hookWatcher.ts), the backlog replay and cleanup scheduling,
the multi-root change-set aggregator (gitService.ts),
the workspace focus arbiter (workspaceManager.ts), and the
notification service with its stale-prompt dismissal mechanism
(notificationService.ts, commands.ts).

Machine strings stay strings; JavaScript Maps become association
lists with last-write-wins set semantics; the asynchronous parts
(file reads, git status queries, user prompts) are passed in as
explicit parameters or oracles so every definition is executable.
-/

/-- The four coarse runtime statuses of an agent (types.ts, AgentStatus). -/
inductive AgentStatus
  | idle
  | running
  | stuck
  | complete
  deriving DecidableEq, Repr

/-- A parsed hook notification (types.ts, HookEvent).  Field names keep the
snake_case wire format.  Event and notification names are kept as raw strings
because the JSON cast in hookWatcher.ts performs no validation. -/
structure HookEvent where
  session_id : String
  cwd : String
  hook_event_name : String
  notification_type : Option String := none
  tool_name : Option String := none
  message : Option String := none
  reason : Option String := none
  deriving DecidableEq, Repr

/-- A persisted agent record (types.ts, StoredAgent). -/
structure StoredAgent where
  id : String
  name : String
  directory : String
  createdAt : Nat
  deriving DecidableEq, Repr

/-- The payload fired on the status-change observer bus
(agentTreeProvider.ts, onStatusChange event). -/
structure StatusChangeEvent where
  agentId : String
  directory : String
  oldStatus : AgentStatus
  newStatus : AgentStatus
  deriving DecidableEq, Repr

/-- Association-list rendering of JavaScript Map.get. -/
def mapLookup {α : Type} (m : List (String × α)) (k : String) : Option α :=
  (m.find? (fun p => p.1 == k)).map (fun p => p.2)

/-- Association-list rendering of JavaScript Map.set (last write wins). -/
def mapSet {α : Type} (m : List (String × α)) (k : String) (v : α) : List (String × α) :=
  (k, v) :: m.filter (fun p => p.1 != k)

/-- HookWatcher.mapEventToStatus (hookWatcher.ts): the pure transition table
from a hook event to the agent status it implies. -/
def mapEventToStatus (event : HookEvent) : AgentStatus :=
  if event.hook_event_name = "PreToolUse" ∨ event.hook_event_name = "PreCompact" then
    AgentStatus.running
  else if event.hook_event_name = "PostToolUse" then
    AgentStatus.running
  else if event.hook_event_name = "Notification" then
    if event.notification_type = some "permission_prompt" then AgentStatus.stuck
    else if event.notification_type = some "idle_prompt" then AgentStatus.complete
    else if event.notification_type = some "user_cancelled_tool_use" then AgentStatus.running
    else AgentStatus.complete
  else if event.hook_event_name = "Stop" then
    AgentStatus.complete
  else if event.hook_event_name = "SessionEnd" then
    AgentStatus.idle
  else
    AgentStatus.idle

/-- The state owned by AgentTreeProvider: the stored agents (via AgentStorage)
and the per-directory runtime status map. -/
structure TreeProviderState where
  agents : List StoredAgent
  agentStatuses : List (String × AgentStatus)
  deriving DecidableEq, Repr

/-- AgentTreeProvider.getAgentStatus: stored status or default idle. -/
def getAgentStatus (st : TreeProviderState) (directory : String) : AgentStatus :=
  (mapLookup st.agentStatuses directory).getD AgentStatus.idle

/-- AgentTreeProvider.handleHookEvent: computes the new status, always stores
it, and fires a status-change event only when the value differs and an agent
is registered for the directory.  Returns the new state and the list of
events fired on the observer bus. -/
def handleHookEvent (st : TreeProviderState) (event : HookEvent) :
    TreeProviderState × List StatusChangeEvent :=
  let newStatus := mapEventToStatus event
  let oldStatus := (mapLookup st.agentStatuses event.cwd).getD AgentStatus.idle
  if oldStatus ≠ newStatus then
    let st' := { st with agentStatuses := mapSet st.agentStatuses event.cwd newStatus }
    match st.agents.find? (fun a => a.directory == event.cwd) with
    | some agent =>
        (st', [{ agentId := agent.id, directory := event.cwd,
                 oldStatus := oldStatus, newStatus := newStatus }])
    | none => (st', [])
  else
    ({ st with agentStatuses := mapSet st.agentStatuses event.cwd newStatus }, [])

/-- AgentTreeProvider.setAgentStatus: the explicit assignment path; identical
store-always, fire-on-change structure. -/
def setAgentStatus (st : TreeProviderState) (directory : String) (status : AgentStatus) :
    TreeProviderState × List StatusChangeEvent :=
  let oldStatus := (mapLookup st.agentStatuses directory).getD AgentStatus.idle
  if oldStatus ≠ status then
    let st' := { st with agentStatuses := mapSet st.agentStatuses directory status }
    match st.agents.find? (fun a => a.directory == directory) with
    | some agent =>
        (st', [{ agentId := agent.id, directory := directory,
                 oldStatus := oldStatus, newStatus := status }])
    | none => (st', [])
  else
    ({ st with agentStatuses := mapSet st.agentStatuses directory status }, [])

/-- The agentFleet.resetAgentStatus command (commands.ts): looks the agent up
by id and resets its status to idle only when it is currently complete. -/
def resetAgentStatus (st : TreeProviderState) (agentId : String) :
    TreeProviderState × List StatusChangeEvent :=
  match st.agents.find? (fun a => a.id == agentId) with
  | none => (st, [])
  | some agent =>
      if getAgentStatus st agent.directory = AgentStatus.complete then
        setAgentStatus st agent.directory AgentStatus.idle
      else
        (st, [])

/-- State owned by HookWatcher: the set of already-processed file paths. -/
structure WatcherState where
  processedFiles : List String
  deriving DecidableEq, Repr

/-- HookWatcher.processEventFile.  The filesystem read plus the JSON parse are
passed in as the oracle `fileRead` (`none` models a read or parse failure).
Returns the new watcher state, the list of (path, event) deliveries fired on
the onEvent emitter, and the list of paths handed to scheduleCleanup. -/
def processEventFile (fileRead : String → Option HookEvent) (st : WatcherState)
    (filePath : String) : WatcherState × List (String × HookEvent) × List String :=
  if filePath ∈ st.processedFiles then
    (st, [], [])
  else
    let st' : WatcherState := { processedFiles := filePath :: st.processedFiles }
    match fileRead filePath with
    | some event => (st', [(filePath, event)], [filePath])
    | none => (st', [], [])

/-- The ingestion pipeline for one notification of one file: the watcher
processes the file and every delivered event is handled by the tree provider
(extension.ts wires hookWatcher.onEvent to AgentTreeProvider.handleHookEvent).
Returns both new states and all observer-bus events fired. -/
def ingestFile (fileRead : String → Option HookEvent) (w : WatcherState)
    (t : TreeProviderState) (filePath : String) :
    WatcherState × TreeProviderState × List StatusChangeEvent :=
  let r := processEventFile fileRead w filePath
  let folded := r.2.1.foldl
    (fun (acc : TreeProviderState × List StatusChangeEvent) pe =>
      let h := handleHookEvent acc.1 pe.2
      (h.1, acc.2 ++ h.2))
    (t, [])
  (r.1, folded.1, folded.2)

/-- A directory-listing entry as seen by processExistingEvents: file name and
modification time. -/
structure FsFile where
  name : String
  mtime : Nat
  deriving DecidableEq, Repr

/-- Executable rendering of String.endsWith over the character list. -/
def strEndsWith (s pat : String) : Bool :=
  pat.data.isSuffixOf s.data

/-- Executable rendering of String.startsWith over the character list. -/
def strStartsWith (s pat : String) : Bool :=
  pat.data.isPrefixOf s.data

/-- The descending-mtime order used by the backlog comparator
`(a, b) => b.mtime - a.mtime`. -/
def mtimeDesc (a b : FsFile) : Prop := b.mtime ≤ a.mtime

instance : DecidableRel mtimeDesc := fun a b => Nat.decLe b.mtime a.mtime

instance : IsTotal FsFile mtimeDesc :=
  ⟨fun a b => Nat.le_total b.mtime a.mtime⟩

instance : IsTrans FsFile mtimeDesc :=
  ⟨fun _ _ _ h1 h2 => Nat.le_trans h2 h1⟩

/-- The selection step of HookWatcher.processExistingEvents: keep the .json
files, sort by modification time descending (the JavaScript comparator sort is
rendered as a stable sort by the comparator order), and keep only the first
100 entries. -/
def backlogSelection (files : List FsFile) : List FsFile :=
  (((files.filter (fun f => strEndsWith f.name ".json")).insertionSort mtimeDesc).take 100)

/-- HookWatcher.processExistingEvents: replay the selected backlog through
processEventFile, accumulating deliveries and cleanup-scheduled paths. -/
def processExistingEvents (fileRead : String → Option HookEvent) (files : List FsFile)
    (w : WatcherState) : WatcherState × List (String × HookEvent) × List String :=
  (backlogSelection files).foldl
    (fun (acc : WatcherState × List (String × HookEvent) × List String) f =>
      let r := processEventFile fileRead acc.1 f.name
      (r.1, acc.2.1 ++ r.2.1, acc.2.2 ++ r.2.2))
    (w, [], [])

/-- A workspace folder entry (uri path plus display name) of the host's
ordered folder list. -/
structure WorkspaceFolder where
  path : String
  name : String
  deriving DecidableEq, Repr

/-- The state around WorkspaceManager: its two tracking fields (which the
manager also persists to globalState as one unit) together with the
host-owned workspace folder list it mutates. -/
structure WorkspaceState where
  focusedAgentId : Option String
  focusedFolderPath : Option String
  folders : List WorkspaceFolder
  deriving DecidableEq, Repr

/-- The display name given to a focused folder. -/
def focusFolderName (agent : StoredAgent) : String := "🤖 " ++ agent.name

/-- WorkspaceManager.focusWorkspace.  `envAccepts` models whether the host's
updateWorkspaceFolders call succeeds.  Returns the new state and the boolean
result the method returns to its caller. -/
def focusWorkspace (st : WorkspaceState) (agent : StoredAgent) (envAccepts : Bool) :
    WorkspaceState × Bool :=
  if st.focusedAgentId = some agent.id then
    (st, true)
  else if st.folders.any (fun f => f.path == agent.directory) then
    ({ st with focusedAgentId := some agent.id,
               focusedFolderPath := some agent.directory }, true)
  else
    let removeIndex : Option Nat :=
      st.focusedFolderPath.bind (fun p => st.folders.findIdx? (fun f => f.path == p))
    match removeIndex with
    | some i =>
        if envAccepts then
          ({ focusedAgentId := some agent.id,
             focusedFolderPath := some agent.directory,
             folders := st.folders.set i { path := agent.directory, name := focusFolderName agent } },
           true)
        else
          (st, false)
    | none =>
        if envAccepts then
          ({ focusedAgentId := some agent.id,
             focusedFolderPath := some agent.directory,
             folders := st.folders ++ [{ path := agent.directory, name := focusFolderName agent }] },
           true)
        else
          (st, false)

/-- WorkspaceManager.unfocusWorkspace. -/
def unfocusWorkspace (st : WorkspaceState) (envAccepts : Bool) : WorkspaceState × Bool :=
  match st.focusedFolderPath with
  | none => (st, true)
  | some p =>
      match st.folders.findIdx? (fun f => f.path == p) with
      | none =>
          ({ st with focusedAgentId := none, focusedFolderPath := none }, true)
      | some i =>
          if envAccepts then
            ({ focusedAgentId := none, focusedFolderPath := none,
               folders := st.folders.eraseIdx i }, true)
          else
            (st, false)

/-- One externally triggered focus-arbiter operation, tagged with whether the
host accepts the folder-list mutation it may attempt. -/
inductive WorkspaceOp
  | focus (agent : StoredAgent) (envAccepts : Bool)
  | unfocus (envAccepts : Bool)

/-- Apply one focus-arbiter operation, keeping only the state. -/
def applyWorkspaceOp (st : WorkspaceState) : WorkspaceOp → WorkspaceState
  | WorkspaceOp.focus a b => (focusWorkspace st a b).1
  | WorkspaceOp.unfocus b => (unfocusWorkspace st b).1

/-- Apply a sequence of focus-arbiter operations. -/
def applyWorkspaceOps (st : WorkspaceState) (ops : List WorkspaceOp) : WorkspaceState :=
  ops.foldl applyWorkspaceOp st

/-- The focus-arbiter state invariant: the focused agent id is set iff the
focused folder uri is set, and the folder list holds no duplicate directory. -/
def workspaceInv (st : WorkspaceState) : Prop :=
  (st.focusedAgentId.isSome ↔ st.focusedFolderPath.isSome) ∧
  (st.folders.map WorkspaceFolder.path).Nodup

/-- Which of the two user-facing prompts of
NotificationService.notifyStatusChange a pending entry belongs to. -/
inductive PromptKind
  | stuckPrompt
  | completePrompt
  deriving DecidableEq, Repr

/-- One outstanding user prompt.  In the source each call of
notifyStatusChange closes over its own `notificationState` object; the
per-object identity is rendered by the allocation counter `refId`. -/
structure Prompt where
  agentId : String
  refId : Nat
  kind : PromptKind
  deriving DecidableEq, Repr

/-- State owned by NotificationService: the allocation counter for
notification-state objects, the set of objects whose `dismissed` flag has been
set, and the pendingNotifications map from agent id to its current object. -/
structure NotifState where
  nextRef : Nat
  dismissedRefs : List Nat
  pendingByAgent : List (String × Nat)
  deriving DecidableEq, Repr

/-- The entry half of NotificationService.notifyStatusChange, up to the await
on the prompt: on an actual change it allocates a fresh notification state,
registers it in pendingNotifications, and opens a prompt when the new status
is stuck or complete.  Returns the state and the prompt now outstanding. -/
def notifyStatusChange (st : NotifState) (agent : StoredAgent)
    (newStatus oldStatus : AgentStatus) : NotifState × Option Prompt :=
  if newStatus = oldStatus then
    (st, none)
  else
    let r := st.nextRef
    let st' : NotifState :=
      { nextRef := r + 1
        dismissedRefs := st.dismissedRefs
        pendingByAgent := mapSet st.pendingByAgent agent.id r }
    if newStatus = AgentStatus.stuck then
      (st', some { agentId := agent.id, refId := r, kind := PromptKind.stuckPrompt })
    else if newStatus = AgentStatus.complete then
      (st', some { agentId := agent.id, refId := r, kind := PromptKind.completePrompt })
    else
      (st', none)

/-- NotificationService.dismissNotification: mark the agent's pending
notification state, if any, as dismissed. -/
def dismissNotification (st : NotifState) (agentId : String) : NotifState :=
  match mapLookup st.pendingByAgent agentId with
  | some r => { st with dismissedRefs := r :: st.dismissedRefs }
  | none => st

/-- The downstream commands a resolved prompt can execute. -/
inductive DownstreamAction
  | openTerminalAct (agentId : String)
  | focusWorkspaceAct (agentId : String)
  | resetStatusAct (agentId : String)
  deriving DecidableEq, Repr

/-- The resumption half of NotificationService.notifyStatusChange, after the
prompt resolves with `choice` (`none` models the toast being closed): the
pending entry is deleted, and if this prompt's own notification state was
marked dismissed every action is discarded; otherwise the chosen command runs
(for the complete prompt, any other choice runs agentFleet.resetAgentStatus). -/
def resolvePrompt (st : NotifState) (p : Prompt) (choice : Option String) :
    NotifState × Option DownstreamAction :=
  let st' := { st with pendingByAgent := st.pendingByAgent.filter (fun q => q.1 != p.agentId) }
  if p.refId ∈ st.dismissedRefs then
    (st', none)
  else
    match p.kind with
    | PromptKind.stuckPrompt =>
        if choice = some "Open Terminal" then
          (st', some (DownstreamAction.openTerminalAct p.agentId))
        else
          (st', none)
    | PromptKind.completePrompt =>
        if choice = some "Focus Workspace" then
          (st', some (DownstreamAction.focusWorkspaceAct p.agentId))
        else if choice = some "Open Terminal" then
          (st', some (DownstreamAction.openTerminalAct p.agentId))
        else
          (st', some (DownstreamAction.resetStatusAct p.agentId))

/-- Modelled from the spec: the dismissal wiring between the observer bus and
NotificationService.  dismissNotification has no caller under src/ (the
extension.ts revision included predates it), but §4.5 states that when a
session's status changes again the pending response is marked dismissed
before the new notification is raised. -/
def handleStatusChangeEvent (st : NotifState) (agent : StoredAgent)
    (newStatus oldStatus : AgentStatus) : NotifState × Option Prompt :=
  notifyStatusChange (dismissNotification st agent.id) agent newStatus oldStatus

/-- Modelled from the spec: the terminal-brought-to-front wiring.  §4.5 states
that focusing a session's terminal dismisses its pending prompt; the
TerminalManager revision under src/ fires onTerminalFocused for exactly this,
but the subscribing extension.ts revision is not under src/. -/
def handleTerminalFocused (st : NotifState) (agentId : String) : NotifState :=
  dismissNotification st agentId

/-- One notification-level occurrence between a prompt's creation and its
resolution: a further status change, a terminal brought to front, or the user
resolving some other prompt. -/
inductive NotifOp
  | statusChange (agent : StoredAgent) (newStatus oldStatus : AgentStatus)
  | terminalFront (agentId : String)
  | userResolve (p : Prompt) (choice : Option String)

/-- Apply one notification-level occurrence, keeping only the state. -/
def applyNotifOp (st : NotifState) : NotifOp → NotifState
  | NotifOp.statusChange a n o => (handleStatusChangeEvent st a n o).1
  | NotifOp.terminalFront i => handleTerminalFocused st i
  | NotifOp.userResolve p c => (resolvePrompt st p c).1

/-- Apply a sequence of notification-level occurrences. -/
def applyNotifOps (st : NotifState) (ops : List NotifOp) : NotifState :=
  ops.foldl applyNotifOp st

/-- An occurrence that §4.5 says dismisses the pending prompt of `agentId`:
another status change of the same session, or its terminal brought to front. -/
def dismissesFor (agentId : String) : NotifOp → Prop
  | NotifOp.statusChange a _ _ => a.id = agentId
  | NotifOp.terminalFront i => i = agentId
  | NotifOp.userResolve _ _ => False

/-- Path concatenation (path.join on one segment). -/
def joinPath (d n : String) : String := d ++ "/" ++ n

/-- A changed file as reported by the multi-root aggregator.  The gitRoot
field is the one agentTreeProvider.ts reads (file.gitRoot); it belongs to the
aggregator revision that is not under src/. -/
structure ChangedFile where
  path : String
  status : String
  absolutePath : String
  gitRoot : String
  deriving DecidableEq, Repr

/-- The git-facing environment of the aggregator: which directories are
repository roots, the immediate subdirectory names of a directory, and the
outcome of a changed-file status query on a root (`none` models a query
failure). -/
structure GitEnv where
  isRepoRoot : String → Bool
  subdirNames : String → List String
  statusResult : String → Option (List (String × String))

/-- Modelled from the spec: GitService.getChangedFiles with nested-repository
support (§4.3).  The revision of gitService.ts under src/ is a single-root
one whose ChangedFile has no gitRoot, yet its callers (agentTreeProvider.ts,
commands.ts) read file.gitRoot, so the multi-root aggregator itself is not
under src/.  Root set: the directory itself when it is a repository root,
otherwise its immediate non-hidden subdirectories that are repository roots.
Each root is queried in isolation, a failed root is omitted, and for roots
other than the directory itself every path is prefixed with the root's name
relative to the session directory. -/
def getChangedFiles (env : GitEnv) (directory : String) : List ChangedFile :=
  let roots : List (Option String × String) :=
    if env.isRepoRoot directory then
      [(none, directory)]
    else
      ((env.subdirNames directory).filter
          (fun n => !(strStartsWith n ".") && env.isRepoRoot (joinPath directory n))).map
        (fun n => (some n, joinPath directory n))
  roots.foldr
    (fun r acc =>
      match env.statusResult r.2 with
      | none => acc
      | some entries =>
          (entries.map (fun e =>
            { path := match r.1 with
                      | none => e.1
                      | some rel => rel ++ "/" ++ e.1
              status := e.2
              absolutePath := joinPath r.2 e.1
              gitRoot := r.2 })) ++ acc)
    []


/- Shared lemmas about the association-list map operations. -/

theorem mapLookup_set_self {α : Type} (m : List (String × α)) (k : String) (v : α) :
    mapLookup (mapSet m k v) k = some v := by
  simp [mapLookup, mapSet, List.find?]

theorem find?_filter_ne {α : Type} (m : List (String × α)) (k k' : String) (h : k' ≠ k) :
    (m.filter (fun p => p.1 != k)).find? (fun p => p.1 == k') =
      m.find? (fun p => p.1 == k') := by
  induction m with
  | nil => rfl
  | cons hd tl ih =>
      cases hb1 : (hd.1 != k) with
      | false =>
          have hk : hd.1 = k := by simpa using hb1
          have hb2 : (hd.1 == k') = false := by
            rw [beq_eq_false_iff_ne, hk]
            exact fun hh => h hh.symm
          simp [List.filter_cons, hb1, List.find?, hb2, ih]
      | true =>
          cases hb2 : (hd.1 == k') with
          | true => simp [List.filter_cons, hb1, List.find?, hb2]
          | false => simp [List.filter_cons, hb1, List.find?, hb2, ih]

theorem mapLookup_set_other {α : Type} (m : List (String × α)) (k k' : String) (v : α)
    (h : k' ≠ k) : mapLookup (mapSet m k v) k' = mapLookup m k' := by
  have hne : (k == k') = false := by
    simp
    exact fun hh => h hh.symm
  simp [mapLookup, mapSet, List.find?, hne, find?_filter_ne m k k' h]

/-- Claim C1: the status mapping is total over hook events and matches the
transition table: PreToolUse, PreCompact and PostToolUse give running;
Notification gives stuck for permission_prompt, complete for idle_prompt,
running for user_cancelled_tool_use and complete for any other or absent
notification type; Stop gives complete; SessionEnd gives idle; and any
unrecognized event name gives idle. -/
theorem mapEventToStatus_matches_table (e : HookEvent) :
    ((e.hook_event_name = "PreToolUse" ∨ e.hook_event_name = "PreCompact" ∨
        e.hook_event_name = "PostToolUse") → mapEventToStatus e = AgentStatus.running) ∧
    (e.hook_event_name = "Notification" →
      (e.notification_type = some "permission_prompt" → mapEventToStatus e = AgentStatus.stuck) ∧
      (e.notification_type = some "idle_prompt" → mapEventToStatus e = AgentStatus.complete) ∧
      (e.notification_type = some "user_cancelled_tool_use" →
        mapEventToStatus e = AgentStatus.running) ∧
      (e.notification_type ≠ some "permission_prompt" →
        e.notification_type ≠ some "idle_prompt" →
        e.notification_type ≠ some "user_cancelled_tool_use" →
        mapEventToStatus e = AgentStatus.complete)) ∧
    (e.hook_event_name = "Stop" → mapEventToStatus e = AgentStatus.complete) ∧
    (e.hook_event_name = "SessionEnd" → mapEventToStatus e = AgentStatus.idle) ∧
    (e.hook_event_name ∉ ["PreToolUse", "PreCompact", "PostToolUse", "Notification",
        "Stop", "SessionEnd"] → mapEventToStatus e = AgentStatus.idle) := by
  refine ⟨?_, ?_, ?_, ?_, ?_⟩
  · rintro (h | h | h) <;> simp [mapEventToStatus, h]
  · intro h
    refine ⟨?_, ?_, ?_, ?_⟩
    · intro hn; simp [mapEventToStatus, h, hn]
    · intro hn; simp [mapEventToStatus, h, hn]
    · intro hn; simp [mapEventToStatus, h, hn]
    · intro h1 h2 h3; simp [mapEventToStatus, h, h1, h2, h3]
  · intro h; simp [mapEventToStatus, h]
  · intro h; simp [mapEventToStatus, h]
  · intro h
    simp only [List.mem_cons, List.mem_singleton, not_or] at h
    obtain ⟨h1, h2, h3, h4, h5, h6, -⟩ := h
    simp [mapEventToStatus, h1, h2, h3, h4, h5, h6]

theorem mapEventToStatus_matches_table_witness :
    mapEventToStatus { session_id := "s", cwd := "/w", hook_event_name := "Notification",
                       notification_type := some "permission_prompt" } = AgentStatus.stuck ∧
    mapEventToStatus { session_id := "s", cwd := "/w", hook_event_name := "SessionStart" } =
      AgentStatus.idle :=
  ⟨((mapEventToStatus_matches_table _).2.1 rfl).1 rfl,
   (mapEventToStatus_matches_table _).2.2.2.2 (by decide)⟩

/- Characterization lemmas for the status map writes. -/

theorem handleHookEvent_eq_case (st : TreeProviderState) (event : HookEvent)
    (h : getAgentStatus st event.cwd = mapEventToStatus event) :
    handleHookEvent st event =
      ({ st with agentStatuses := mapSet st.agentStatuses event.cwd (mapEventToStatus event) },
       []) := by
  simp only [handleHookEvent]
  rw [if_neg (fun hne => hne h)]

theorem handleHookEvent_changed_found (st : TreeProviderState) (event : HookEvent)
    (agent : StoredAgent)
    (hne : getAgentStatus st event.cwd ≠ mapEventToStatus event)
    (hf : st.agents.find? (fun a => a.directory == event.cwd) = some agent) :
    handleHookEvent st event =
      ({ st with agentStatuses := mapSet st.agentStatuses event.cwd (mapEventToStatus event) },
       [{ agentId := agent.id, directory := event.cwd,
          oldStatus := getAgentStatus st event.cwd, newStatus := mapEventToStatus event }]) := by
  have hne' : (mapLookup st.agentStatuses event.cwd).getD AgentStatus.idle ≠
      mapEventToStatus event := hne
  simp only [handleHookEvent]
  rw [if_pos hne', hf]
  rfl

theorem handleHookEvent_changed_notfound (st : TreeProviderState) (event : HookEvent)
    (hne : getAgentStatus st event.cwd ≠ mapEventToStatus event)
    (hf : st.agents.find? (fun a => a.directory == event.cwd) = none) :
    handleHookEvent st event =
      ({ st with agentStatuses := mapSet st.agentStatuses event.cwd (mapEventToStatus event) },
       []) := by
  have hne' : (mapLookup st.agentStatuses event.cwd).getD AgentStatus.idle ≠
      mapEventToStatus event := hne
  simp only [handleHookEvent]
  rw [if_pos hne', hf]

theorem setAgentStatus_eq_case (st : TreeProviderState) (d : String) (s : AgentStatus)
    (h : getAgentStatus st d = s) :
    setAgentStatus st d s =
      ({ st with agentStatuses := mapSet st.agentStatuses d s }, []) := by
  simp only [setAgentStatus]
  rw [if_neg (fun hne => hne h)]

theorem setAgentStatus_changed_found (st : TreeProviderState) (d : String) (s : AgentStatus)
    (agent : StoredAgent)
    (hne : getAgentStatus st d ≠ s)
    (hf : st.agents.find? (fun a => a.directory == d) = some agent) :
    setAgentStatus st d s =
      ({ st with agentStatuses := mapSet st.agentStatuses d s },
       [{ agentId := agent.id, directory := d,
          oldStatus := getAgentStatus st d, newStatus := s }]) := by
  have hne' : (mapLookup st.agentStatuses d).getD AgentStatus.idle ≠ s := hne
  simp only [setAgentStatus]
  rw [if_pos hne', hf]
  rfl

theorem setAgentStatus_changed_notfound (st : TreeProviderState) (d : String) (s : AgentStatus)
    (hne : getAgentStatus st d ≠ s)
    (hf : st.agents.find? (fun a => a.directory == d) = none) :
    setAgentStatus st d s =
      ({ st with agentStatuses := mapSet st.agentStatuses d s }, []) := by
  have hne' : (mapLookup st.agentStatuses d).getD AgentStatus.idle ≠ s := hne
  simp only [setAgentStatus]
  rw [if_pos hne', hf]

theorem setAgentStatus_agents (st : TreeProviderState) (d : String) (s : AgentStatus) :
    (setAgentStatus st d s).1.agents = st.agents := by
  by_cases h : getAgentStatus st d = s
  · rw [setAgentStatus_eq_case st d s h]
  · cases hf : st.agents.find? (fun a => a.directory == d) with
    | none => rw [setAgentStatus_changed_notfound st d s h hf]
    | some agent => rw [setAgentStatus_changed_found st d s agent h hf]

theorem getAgentStatus_set_self (st : TreeProviderState) (d : String) (s : AgentStatus) :
    getAgentStatus (setAgentStatus st d s).1 d = s := by
  by_cases h : getAgentStatus st d = s
  · rw [setAgentStatus_eq_case st d s h]
    simp [getAgentStatus, mapLookup_set_self]
  · cases hf : st.agents.find? (fun a => a.directory == d) with
    | none =>
        rw [setAgentStatus_changed_notfound st d s h hf]
        simp [getAgentStatus, mapLookup_set_self]
    | some agent =>
        rw [setAgentStatus_changed_found st d s agent h hf]
        simp [getAgentStatus, mapLookup_set_self]

theorem getAgentStatus_set_other (st : TreeProviderState) (d : String) (s : AgentStatus)
    (d' : String) (hd : d' ≠ d) :
    getAgentStatus (setAgentStatus st d s).1 d' = getAgentStatus st d' := by
  by_cases h : getAgentStatus st d = s
  · rw [setAgentStatus_eq_case st d s h]
    simp [getAgentStatus, mapLookup_set_other _ _ _ _ hd]
  · cases hf : st.agents.find? (fun a => a.directory == d) with
    | none =>
        rw [setAgentStatus_changed_notfound st d s h hf]
        simp [getAgentStatus, mapLookup_set_other _ _ _ _ hd]
    | some agent =>
        rw [setAgentStatus_changed_found st d s agent h hf]
        simp [getAgentStatus, mapLookup_set_other _ _ _ _ hd]

/-- Claim C6: for every delivered hook event and every explicit assignment,
the stored per-directory status map is updated even when the computed status
equals the prior status, while an observer-bus notification fires only when
the value differs; when the computed status equals the current one nothing
fires. -/
theorem status_write_fire_discipline (st : TreeProviderState) (event : HookEvent)
    (directory : String) (status : AgentStatus) :
    (mapLookup (handleHookEvent st event).1.agentStatuses event.cwd =
       some (mapEventToStatus event)) ∧
    ((handleHookEvent st event).2 ≠ [] →
       mapEventToStatus event ≠ getAgentStatus st event.cwd) ∧
    (mapEventToStatus event = getAgentStatus st event.cwd →
       (handleHookEvent st event).2 = []) ∧
    (mapLookup (setAgentStatus st directory status).1.agentStatuses directory = some status) ∧
    ((setAgentStatus st directory status).2 ≠ [] → status ≠ getAgentStatus st directory) ∧
    (status = getAgentStatus st directory → (setAgentStatus st directory status).2 = []) := by
  refine ⟨?_, ?_, ?_, ?_, ?_, ?_⟩
  · by_cases h : getAgentStatus st event.cwd = mapEventToStatus event
    · rw [handleHookEvent_eq_case st event h]
      exact mapLookup_set_self _ _ _
    · cases hf : st.agents.find? (fun a => a.directory == event.cwd) with
      | none =>
          rw [handleHookEvent_changed_notfound st event h hf]
          exact mapLookup_set_self _ _ _
      | some agent =>
          rw [handleHookEvent_changed_found st event agent h hf]
          exact mapLookup_set_self _ _ _
  · intro hfired
    by_cases h : getAgentStatus st event.cwd = mapEventToStatus event
    · rw [handleHookEvent_eq_case st event h] at hfired
      exact absurd rfl hfired
    · exact fun he => h he.symm
  · intro h
    rw [handleHookEvent_eq_case st event h.symm]
  · by_cases h : getAgentStatus st directory = status
    · rw [setAgentStatus_eq_case st directory status h]
      exact mapLookup_set_self _ _ _
    · cases hf : st.agents.find? (fun a => a.directory == directory) with
      | none =>
          rw [setAgentStatus_changed_notfound st directory status h hf]
          exact mapLookup_set_self _ _ _
      | some agent =>
          rw [setAgentStatus_changed_found st directory status agent h hf]
          exact mapLookup_set_self _ _ _
  · intro hfired
    by_cases h : getAgentStatus st directory = status
    · rw [setAgentStatus_eq_case st directory status h] at hfired
      exact absurd rfl hfired
    · exact fun he => h he.symm
  · intro h
    rw [setAgentStatus_eq_case st directory status h.symm]

theorem status_write_fire_discipline_witness :
    mapLookup
        (handleHookEvent { agents := [], agentStatuses := [] }
          { session_id := "s", cwd := "/w", hook_event_name := "Stop" }).1.agentStatuses
        "/w" = some AgentStatus.complete ∧
    (setAgentStatus { agents := [], agentStatuses := [] } "/w" AgentStatus.idle).2 = [] :=
  ⟨(status_write_fire_discipline { agents := [], agentStatuses := [] }
      { session_id := "s", cwd := "/w", hook_event_name := "Stop" } "/w" AgentStatus.idle).1,
   (status_write_fire_discipline { agents := [], agentStatuses := [] }
      { session_id := "s", cwd := "/w", hook_event_name := "Stop" } "/w" AgentStatus.idle).2.2.2.2.2
     (by decide)⟩

/- Characterization lemmas for the reset command. -/

theorem resetAgentStatus_notfound (st : TreeProviderState) (agentId : String)
    (hf : st.agents.find? (fun a => a.id == agentId) = none) :
    resetAgentStatus st agentId = (st, []) := by
  simp only [resetAgentStatus]
  rw [hf]

theorem resetAgentStatus_found_complete (st : TreeProviderState) (agentId : String)
    (agent : StoredAgent)
    (hf : st.agents.find? (fun a => a.id == agentId) = some agent)
    (hc : getAgentStatus st agent.directory = AgentStatus.complete) :
    resetAgentStatus st agentId = setAgentStatus st agent.directory AgentStatus.idle := by
  simp only [resetAgentStatus]
  rw [hf]
  exact if_pos hc

theorem resetAgentStatus_found_other (st : TreeProviderState) (agentId : String)
    (agent : StoredAgent)
    (hf : st.agents.find? (fun a => a.id == agentId) = some agent)
    (hc : getAgentStatus st agent.directory ≠ AgentStatus.complete) :
    resetAgentStatus st agentId = (st, []) := by
  simp only [resetAgentStatus]
  rw [hf]
  exact if_neg hc

/-- Claim C8: the explicit reset only changes a complete status to idle;
applied to a session whose status is idle, running or stuck it leaves the
state untouched, and reset is idempotent. -/
theorem reset_only_complete_to_idle (st : TreeProviderState) (agentId : String) :
    (resetAgentStatus (resetAgentStatus st agentId).1 agentId =
       ((resetAgentStatus st agentId).1, [])) ∧
    (∀ agent, st.agents.find? (fun a => a.id == agentId) = some agent →
      ((getAgentStatus st agent.directory = AgentStatus.complete →
          getAgentStatus (resetAgentStatus st agentId).1 agent.directory = AgentStatus.idle) ∧
       (getAgentStatus st agent.directory ≠ AgentStatus.complete →
          resetAgentStatus st agentId = (st, [])) ∧
       (∀ d, d ≠ agent.directory →
          getAgentStatus (resetAgentStatus st agentId).1 d = getAgentStatus st d))) := by
  constructor
  · cases hf : st.agents.find? (fun a => a.id == agentId) with
    | none =>
        have h1 := resetAgentStatus_notfound st agentId hf
        rw [h1]
        exact resetAgentStatus_notfound st agentId hf
    | some agent =>
        by_cases hc : getAgentStatus st agent.directory = AgentStatus.complete
        · have h1 := resetAgentStatus_found_complete st agentId agent hf hc
          rw [h1]
          have hagents : (setAgentStatus st agent.directory AgentStatus.idle).1.agents =
              st.agents := setAgentStatus_agents st agent.directory AgentStatus.idle
          have hf2 : (setAgentStatus st agent.directory AgentStatus.idle).1.agents.find?
              (fun a => a.id == agentId) = some agent := by
            rw [hagents]; exact hf
          have hidle : getAgentStatus (setAgentStatus st agent.directory AgentStatus.idle).1
              agent.directory = AgentStatus.idle :=
            getAgentStatus_set_self st agent.directory AgentStatus.idle
          exact resetAgentStatus_found_other _ agentId agent hf2 (by rw [hidle]; decide)
        · have h1 := resetAgentStatus_found_other st agentId agent hf hc
          rw [h1]
          exact resetAgentStatus_found_other st agentId agent hf hc
  · intro agent hf
    refine ⟨?_, ?_, ?_⟩
    · intro hc
      rw [resetAgentStatus_found_complete st agentId agent hf hc]
      exact getAgentStatus_set_self st agent.directory AgentStatus.idle
    · intro hc
      exact resetAgentStatus_found_other st agentId agent hf hc
    · intro d hd
      by_cases hc : getAgentStatus st agent.directory = AgentStatus.complete
      · rw [resetAgentStatus_found_complete st agentId agent hf hc]
        exact getAgentStatus_set_other st agent.directory AgentStatus.idle d hd
      · rw [resetAgentStatus_found_other st agentId agent hf hc]

theorem reset_only_complete_to_idle_witness :
    resetAgentStatus { agents := [{ id := "a1", name := "n", directory := "/w", createdAt := 0 }],
                       agentStatuses := [("/w", AgentStatus.stuck)] } "a1" =
      ({ agents := [{ id := "a1", name := "n", directory := "/w", createdAt := 0 }],
         agentStatuses := [("/w", AgentStatus.stuck)] }, []) :=
  ((reset_only_complete_to_idle
      { agents := [{ id := "a1", name := "n", directory := "/w", createdAt := 0 }],
        agentStatuses := [("/w", AgentStatus.stuck)] } "a1").2
    { id := "a1", name := "n", directory := "/w", createdAt := 0 } (by decide)).2.1 (by decide)

/- Characterization lemmas for the watcher dedup. -/

theorem processEventFile_already (fileRead : String → Option HookEvent) (st : WatcherState)
    (p : String) (h : p ∈ st.processedFiles) :
    processEventFile fileRead st p = (st, [], []) := by
  simp only [processEventFile]
  rw [if_pos h]

theorem processEventFile_fresh_some (fileRead : String → Option HookEvent) (st : WatcherState)
    (p : String) (ev : HookEvent) (h : p ∉ st.processedFiles) (he : fileRead p = some ev) :
    processEventFile fileRead st p =
      ({ processedFiles := p :: st.processedFiles }, [(p, ev)], [p]) := by
  simp only [processEventFile]
  rw [if_neg h, he]

theorem processEventFile_fresh_none (fileRead : String → Option HookEvent) (st : WatcherState)
    (p : String) (h : p ∉ st.processedFiles) (he : fileRead p = none) :
    processEventFile fileRead st p = ({ processedFiles := p :: st.processedFiles }, [], []) := by
  simp only [processEventFile]
  rw [if_neg h, he]

theorem processEventFile_mem (fileRead : String → Option HookEvent) (st : WatcherState)
    (p : String) : p ∈ (processEventFile fileRead st p).1.processedFiles := by
  by_cases h : p ∈ st.processedFiles
  · rw [processEventFile_already fileRead st p h]
    exact h
  · cases he : fileRead p with
    | some ev =>
        rw [processEventFile_fresh_some fileRead st p ev h he]
        exact List.mem_cons_self _ _
    | none =>
        rw [processEventFile_fresh_none fileRead st p h he]
        exact List.mem_cons_self _ _

/-- Claim C7: ingestion is idempotent per file path.  Processing the same
file a second time changes nothing and emits nothing, and a fresh parseable
file whose event changes the status of a registered agent yields exactly one
status transition and one observer-bus notification. -/
theorem ingestion_idempotent (fileRead : String → Option HookEvent) (w : WatcherState)
    (t : TreeProviderState) (p : String) :
    (ingestFile fileRead (ingestFile fileRead w t p).1 (ingestFile fileRead w t p).2.1 p =
       ((ingestFile fileRead w t p).1, (ingestFile fileRead w t p).2.1, [])) ∧
    (∀ ev agent, p ∉ w.processedFiles → fileRead p = some ev →
      t.agents.find? (fun a => a.directory == ev.cwd) = some agent →
      mapEventToStatus ev ≠ getAgentStatus t ev.cwd →
      (ingestFile fileRead w t p).2.2 =
        [{ agentId := agent.id, directory := ev.cwd,
           oldStatus := getAgentStatus t ev.cwd, newStatus := mapEventToStatus ev }] ∧
      getAgentStatus (ingestFile fileRead w t p).2.1 ev.cwd = mapEventToStatus ev) := by
  constructor
  · have hmem : p ∈ (processEventFile fileRead w p).1.processedFiles :=
      processEventFile_mem fileRead w p
    simp only [ingestFile,
      processEventFile_already fileRead (processEventFile fileRead w p).1 p hmem,
      List.foldl_nil]
  · intro ev agent hp he hf hne
    have h1 := processEventFile_fresh_some fileRead w p ev hp he
    have h2 := handleHookEvent_changed_found t ev agent (fun hh => hne hh.symm) hf
    constructor
    · simp only [ingestFile, h1, List.foldl_cons, List.foldl_nil, h2, List.nil_append]
    · simp only [ingestFile, h1, List.foldl_cons, List.foldl_nil, h2]
      simp [getAgentStatus, mapLookup_set_self]

theorem ingestion_idempotent_witness :
    (ingestFile (fun _ => some { session_id := "s", cwd := "/w", hook_event_name := "Stop" })
        { processedFiles := [] }
        { agents := [{ id := "a1", name := "n", directory := "/w", createdAt := 0 }],
          agentStatuses := [] } "1.json").2.2 =
      [{ agentId := "a1", directory := "/w",
         oldStatus := AgentStatus.idle, newStatus := AgentStatus.complete }] :=
  ((ingestion_idempotent
      (fun _ => some { session_id := "s", cwd := "/w", hook_event_name := "Stop" })
      { processedFiles := [] }
      { agents := [{ id := "a1", name := "n", directory := "/w", createdAt := 0 }],
        agentStatuses := [] } "1.json").2
    { session_id := "s", cwd := "/w", hook_event_name := "Stop" }
    { id := "a1", name := "n", directory := "/w", createdAt := 0 }
    (by decide) rfl (by decide) (by decide)).1

/- List helpers for the folder-list invariant. -/

theorem map_set_comm {α β : Type} (f : α → β) :
    ∀ (l : List α) (i : Nat) (a : α), (l.set i a).map f = (l.map f).set i (f a) := by
  intro l
  induction l with
  | nil => intro i a; rfl
  | cons x xs ih =>
      intro i a
      cases i with
      | zero => rfl
      | succ n => exact congrArg (List.cons (f x)) (ih n a)

theorem nodup_set_of_not_mem {α : Type} :
    ∀ (l : List α) (i : Nat) (a : α), l.Nodup → a ∉ l → (l.set i a).Nodup := by
  intro l
  induction l with
  | nil => intro i a _ _; simp
  | cons x xs ih =>
      intro i a h ha
      rcases List.nodup_cons.mp h with ⟨hx, hxs⟩
      have ha' : a ∉ xs := fun hm => ha (List.mem_cons_of_mem _ hm)
      cases i with
      | zero =>
          exact List.nodup_cons.mpr ⟨ha', hxs⟩
      | succ n =>
          refine List.nodup_cons.mpr ⟨?_, ih n a hxs ha'⟩
          intro hmem
          rcases List.mem_or_eq_of_mem_set hmem with hm | he
          · exact hx hm
          · exact ha (he ▸ List.mem_cons_self _ _)

theorem not_mem_paths_of_any_false (st : WorkspaceState) (d : String)
    (h : st.folders.any (fun f => f.path == d) = false) :
    d ∉ st.folders.map WorkspaceFolder.path := by
  intro hmem
  rcases List.mem_map.mp hmem with ⟨fo, hfo, hpath⟩
  have := List.any_eq_false.mp h fo hfo
  simp only [beq_iff_eq] at this
  exact this hpath

theorem focusWorkspace_preserves_inv (st : WorkspaceState) (agent : StoredAgent) (b : Bool)
    (h : workspaceInv st) : workspaceInv (focusWorkspace st agent b).1 := by
  obtain ⟨hiff, hnd⟩ := h
  simp only [focusWorkspace]
  split
  · exact ⟨hiff, hnd⟩
  · split
    · exact ⟨by simp, hnd⟩
    next h2 =>
      have h2' : st.folders.any (fun f => f.path == agent.directory) = false :=
        Bool.not_eq_true _ ▸ eq_false_of_ne_true h2
      have hnotmem : agent.directory ∉ st.folders.map WorkspaceFolder.path :=
        not_mem_paths_of_any_false st agent.directory h2'
      split
      · split
        · refine ⟨by simp, ?_⟩
          rw [map_set_comm]
          exact nodup_set_of_not_mem _ _ _ hnd hnotmem
        · exact ⟨hiff, hnd⟩
      · split
        · refine ⟨by simp, ?_⟩
          rw [List.map_append]
          refine List.Nodup.append hnd (List.nodup_singleton _) ?_
          intro a ha hb
          simp only [List.map_cons, List.map_nil, List.mem_singleton] at hb
          exact hnotmem (hb ▸ ha)
        · exact ⟨hiff, hnd⟩

theorem unfocusWorkspace_preserves_inv (st : WorkspaceState) (b : Bool)
    (h : workspaceInv st) : workspaceInv (unfocusWorkspace st b).1 := by
  obtain ⟨hiff, hnd⟩ := h
  simp only [unfocusWorkspace]
  split
  · exact ⟨hiff, hnd⟩
  · split
    · exact ⟨by simp, hnd⟩
    · split
      · refine ⟨by simp, ?_⟩
        exact List.Nodup.sublist ((List.eraseIdx_sublist st.folders _).map _) hnd
      · exact ⟨hiff, hnd⟩

/-- Claim C4: after any sequence of focus and unfocus operations from an
invariant-respecting state, at most one session is focused at every
observable point, the focused session id is set iff the focused directory
uri is set, and the workspace folder list never holds two entries for the
same directory. -/
theorem single_focus_invariant (st : WorkspaceState) (ops : List WorkspaceOp)
    (h : workspaceInv st) :
    workspaceInv (applyWorkspaceOps st ops) ∧
    (∀ i j : String, (applyWorkspaceOps st ops).focusedAgentId = some i →
      (applyWorkspaceOps st ops).focusedAgentId = some j → i = j) := by
  constructor
  · induction ops generalizing st with
    | nil => exact h
    | cons op rest ih =>
        have hstep : workspaceInv (applyWorkspaceOp st op) := by
          cases op with
          | focus a b => exact focusWorkspace_preserves_inv st a b h
          | unfocus b => exact unfocusWorkspace_preserves_inv st b h
        exact ih (applyWorkspaceOp st op) hstep
  · intro i j hi hj
    rw [hi] at hj
    exact Option.some.inj hj

theorem single_focus_invariant_witness :
    workspaceInv
      (applyWorkspaceOps { focusedAgentId := none, focusedFolderPath := none, folders := [] }
        [WorkspaceOp.focus { id := "A", name := "a", directory := "/a", createdAt := 0 } true,
         WorkspaceOp.focus { id := "B", name := "b", directory := "/b", createdAt := 0 } true,
         WorkspaceOp.unfocus true,
         WorkspaceOp.focus { id := "A", name := "a", directory := "/a", createdAt := 0 } true]) :=
  (single_focus_invariant { focusedAgentId := none, focusedFolderPath := none, folders := [] }
    [WorkspaceOp.focus { id := "A", name := "a", directory := "/a", createdAt := 0 } true,
     WorkspaceOp.focus { id := "B", name := "b", directory := "/b", createdAt := 0 } true,
     WorkspaceOp.unfocus true,
     WorkspaceOp.focus { id := "A", name := "a", directory := "/a", createdAt := 0 } true]
    (by constructor <;> simp)).1

/-- Claim C5: on the folder-list mutation path, focusWorkspace is
all-or-nothing: a rejected mutation reports failure and leaves both the
focus state and the folder list exactly unchanged, while an accepted
mutation reports success and persists the new focus state. -/
theorem focus_all_or_nothing (st : WorkspaceState) (agent : StoredAgent)
    (h1 : st.focusedAgentId ≠ some agent.id)
    (h2 : st.folders.any (fun f => f.path == agent.directory) = false) :
    focusWorkspace st agent false = (st, false) ∧
    (focusWorkspace st agent true).2 = true ∧
    (focusWorkspace st agent true).1.focusedAgentId = some agent.id ∧
    (focusWorkspace st agent true).1.focusedFolderPath = some agent.directory := by
  have h2' : ¬(st.folders.any (fun f => f.path == agent.directory) = true) := by
    rw [h2]; exact Bool.false_ne_true
  refine ⟨?_, ?_, ?_, ?_⟩ <;>
    · simp only [focusWorkspace]
      rw [if_neg h1, if_neg h2']
      cases hidx : st.focusedFolderPath.bind
          (fun p => st.folders.findIdx? (fun f => f.path == p)) <;> rfl

theorem focus_all_or_nothing_witness :
    focusWorkspace
        { focusedAgentId := none, focusedFolderPath := none,
          folders := [{ path := "/other", name := "other" }] }
        { id := "A", name := "a", directory := "/a", createdAt := 0 } false =
      ({ focusedAgentId := none, focusedFolderPath := none,
         folders := [{ path := "/other", name := "other" }] }, false) :=
  (focus_all_or_nothing
    { focusedAgentId := none, focusedFolderPath := none,
      folders := [{ path := "/other", name := "other" }] }
    { id := "A", name := "a", directory := "/a", createdAt := 0 }
    (by decide) (by decide)).1

/- Characterization lemmas for the notification service. -/

theorem notifyStatusChange_dismissedRefs (st : NotifState) (agent : StoredAgent)
    (n o : AgentStatus) :
    ((notifyStatusChange st agent n o).1).dismissedRefs = st.dismissedRefs := by
  simp only [notifyStatusChange]
  split
  · rfl
  · split
    · rfl
    · split <;> rfl

theorem notifyStatusChange_stuck (st : NotifState) (agent : StoredAgent)
    (oldStatus : AgentStatus) (h : oldStatus ≠ AgentStatus.stuck) :
    notifyStatusChange st agent AgentStatus.stuck oldStatus =
      ({ nextRef := st.nextRef + 1
         dismissedRefs := st.dismissedRefs
         pendingByAgent := mapSet st.pendingByAgent agent.id st.nextRef },
       some { agentId := agent.id, refId := st.nextRef, kind := PromptKind.stuckPrompt }) := by
  simp only [notifyStatusChange]
  rw [if_neg (fun hh => h hh.symm)]
  simp

theorem dismissNotification_mono (st : NotifState) (a : String) (r : Nat)
    (h : r ∈ st.dismissedRefs) : r ∈ (dismissNotification st a).dismissedRefs := by
  simp only [dismissNotification]
  split
  · exact List.mem_cons_of_mem _ h
  · exact h

theorem dismissNotification_adds (st : NotifState) (a : String) (r : Nat)
    (h : mapLookup st.pendingByAgent a = some r) :
    r ∈ (dismissNotification st a).dismissedRefs := by
  simp only [dismissNotification]
  rw [h]
  exact List.mem_cons_self _ _

theorem resolvePrompt_dismissedRefs (st : NotifState) (p : Prompt) (c : Option String) :
    ((resolvePrompt st p c).1).dismissedRefs = st.dismissedRefs := by
  simp only [resolvePrompt]
  split
  · rfl
  · split
    · split <;> rfl
    · split
      · rfl
      · split <;> rfl

theorem resolvePrompt_dismissed (st : NotifState) (p : Prompt) (c : Option String)
    (h : p.refId ∈ st.dismissedRefs) : (resolvePrompt st p c).2 = none := by
  simp only [resolvePrompt]
  rw [if_pos h]

theorem applyNotifOp_dismissed_mono (st : NotifState) (op : NotifOp) (r : Nat)
    (h : r ∈ st.dismissedRefs) : r ∈ (applyNotifOp st op).dismissedRefs := by
  cases op with
  | statusChange a n o =>
      simp only [applyNotifOp, handleStatusChangeEvent]
      rw [notifyStatusChange_dismissedRefs]
      exact dismissNotification_mono st a.id r h
  | terminalFront i =>
      exact dismissNotification_mono st i r h
  | userResolve p c =>
      simp only [applyNotifOp]
      rw [resolvePrompt_dismissedRefs]
      exact h

theorem applyNotifOps_dismissed_mono (ops : List NotifOp) : ∀ (st : NotifState) (r : Nat),
    r ∈ st.dismissedRefs → r ∈ (applyNotifOps st ops).dismissedRefs := by
  induction ops with
  | nil => intro st r h; exact h
  | cons op rest ih =>
      intro st r h
      exact ih _ r (applyNotifOp_dismissed_mono st op r h)

theorem dismissesFor_adds (st : NotifState) (a : String) (op : NotifOp) (r : Nat)
    (hd : dismissesFor a op) (hl : mapLookup st.pendingByAgent a = some r) :
    r ∈ (applyNotifOp st op).dismissedRefs := by
  cases op with
  | statusChange ag n o =>
      have hid : ag.id = a := hd
      simp only [applyNotifOp, handleStatusChangeEvent]
      rw [notifyStatusChange_dismissedRefs, hid]
      exact dismissNotification_adds st a r hl
  | terminalFront i =>
      have hid : i = a := hd
      simp only [applyNotifOp, handleTerminalFocused]
      rw [hid]
      exact dismissNotification_adds st a r hl
  | userResolve p c => exact hd.elim

/-- Claim C3 counterexample: prompt P0 is created for agent A on a complete
transition, then a stuck transition creates P1; the stale P0 then resolves
(notificationService.ts deletes the agent's pendingNotifications entry, which
is now P1's), so when A's terminal is next brought to front — before the
user responds to P1 — the dismissal finds no pending entry and marks
nothing, and P1's eventual Open Terminal response executes the downstream
action after all, contrary to the claim. -/
theorem stale_prompt_dismissal_counterexample :
    (handleStatusChangeEvent { nextRef := 0, dismissedRefs := [], pendingByAgent := [] }
        { id := "A", name := "a", directory := "/a", createdAt := 0 }
        AgentStatus.complete AgentStatus.idle).2 =
      some { agentId := "A", refId := 0, kind := PromptKind.completePrompt } ∧
    (handleStatusChangeEvent
        (handleStatusChangeEvent { nextRef := 0, dismissedRefs := [], pendingByAgent := [] }
          { id := "A", name := "a", directory := "/a", createdAt := 0 }
          AgentStatus.complete AgentStatus.idle).1
        { id := "A", name := "a", directory := "/a", createdAt := 0 }
        AgentStatus.stuck AgentStatus.complete).2 =
      some { agentId := "A", refId := 1, kind := PromptKind.stuckPrompt } ∧
    (resolvePrompt
        (applyNotifOps
          (handleStatusChangeEvent
            (handleStatusChangeEvent { nextRef := 0, dismissedRefs := [], pendingByAgent := [] }
              { id := "A", name := "a", directory := "/a", createdAt := 0 }
              AgentStatus.complete AgentStatus.idle).1
            { id := "A", name := "a", directory := "/a", createdAt := 0 }
            AgentStatus.stuck AgentStatus.complete).1
          [NotifOp.userResolve { agentId := "A", refId := 0, kind := PromptKind.completePrompt }
             none,
           NotifOp.terminalFront "A"])
        { agentId := "A", refId := 1, kind := PromptKind.stuckPrompt }
        (some "Open Terminal")).2 =
      some (DownstreamAction.openTerminalAct "A") := by
  decide

/-- Claim C3 (amended): if a session's status transitions into stuck,
creating prompt P1, and a same-session status change or terminal-front
occurrence happens before the user responds while P1 is still the session's
registered pending notification — that is, no other prompt resolution for
the same session has deleted the pending entry in between — then whatever
further occurrences happen and whatever choice the user's eventual response
to P1 carries, no downstream action is executed for P1. -/
theorem stale_prompt_never_acts (st0 : NotifState) (agent : StoredAgent)
    (oldStatus : AgentStatus) (p1 : Prompt) (mid : List NotifOp) (second : NotifOp)
    (ops : List NotifOp) (choice : Option String)
    (_hp1 : (handleStatusChangeEvent st0 agent AgentStatus.stuck oldStatus).2 = some p1)
    (hreg : mapLookup
        (applyNotifOps (handleStatusChangeEvent st0 agent AgentStatus.stuck oldStatus).1
          mid).pendingByAgent agent.id = some p1.refId)
    (hd : dismissesFor agent.id second) :
    (resolvePrompt
        (applyNotifOps
          (applyNotifOp
            (applyNotifOps (handleStatusChangeEvent st0 agent AgentStatus.stuck oldStatus).1
              mid)
            second)
          ops)
        p1 choice).2 = none := by
  have hsecond := dismissesFor_adds
    (applyNotifOps (handleStatusChangeEvent st0 agent AgentStatus.stuck oldStatus).1 mid)
    agent.id second p1.refId hd hreg
  have hfinal := applyNotifOps_dismissed_mono ops _ _ hsecond
  exact resolvePrompt_dismissed _ p1 choice hfinal

theorem stale_prompt_never_acts_witness :
    (resolvePrompt
        (applyNotifOps
          (applyNotifOp
            (applyNotifOps
              (handleStatusChangeEvent { nextRef := 0, dismissedRefs := [], pendingByAgent := [] }
                { id := "A", name := "a", directory := "/a", createdAt := 0 }
                AgentStatus.stuck AgentStatus.idle).1
              [])
            (NotifOp.terminalFront "A"))
          [])
        { agentId := "A", refId := 0, kind := PromptKind.stuckPrompt }
        (some "Open Terminal")).2 = none :=
  stale_prompt_never_acts { nextRef := 0, dismissedRefs := [], pendingByAgent := [] }
    { id := "A", name := "a", directory := "/a", createdAt := 0 }
    AgentStatus.idle { agentId := "A", refId := 0, kind := PromptKind.stuckPrompt }
    [] (NotifOp.terminalFront "A") [] (some "Open Terminal") (by decide) (by decide) rfl

/-- Claim C10 counterexample: a complete-status prompt whose pending
notification state was marked dismissed before the user answered resolves
with the choice Dismiss, yet executes no downstream command at all — in
particular the reset command is not executed, contrary to the claim that
every resolution with a choice other than Focus Workspace and Open Terminal
resets the status. -/
theorem complete_prompt_dismiss_reset_counterexample :
    (notifyStatusChange { nextRef := 0, dismissedRefs := [], pendingByAgent := [] }
        { id := "A", name := "a", directory := "/a", createdAt := 0 }
        AgentStatus.complete AgentStatus.idle).2 =
      some { agentId := "A", refId := 0, kind := PromptKind.completePrompt } ∧
    (resolvePrompt
        (dismissNotification
          (notifyStatusChange { nextRef := 0, dismissedRefs := [], pendingByAgent := [] }
            { id := "A", name := "a", directory := "/a", createdAt := 0 }
            AgentStatus.complete AgentStatus.idle).1
          "A")
        { agentId := "A", refId := 0, kind := PromptKind.completePrompt }
        (some "Dismiss")).2 = none := by
  decide

/-- Claim C10 (amended): when the complete-status prompt resolves with any
choice other than Focus Workspace and Open Terminal (including Dismiss or
closing the toast) and its pending notification state has not been marked
dismissed, the reset command is executed, and that command resets a complete
status to idle; a prompt marked dismissed executes nothing, and the
stuck-status prompt never executes the reset command. -/
theorem complete_prompt_reset_on_dismiss (st : NotifState) (p : Prompt)
    (choice : Option String) (ts : TreeProviderState) :
    (p.kind = PromptKind.completePrompt → p.refId ∉ st.dismissedRefs →
      choice ≠ some "Focus Workspace" → choice ≠ some "Open Terminal" →
      (resolvePrompt st p choice).2 = some (DownstreamAction.resetStatusAct p.agentId)) ∧
    (p.refId ∈ st.dismissedRefs → (resolvePrompt st p choice).2 = none) ∧
    (p.kind = PromptKind.stuckPrompt →
      ∀ a, (resolvePrompt st p choice).2 ≠ some (DownstreamAction.resetStatusAct a)) ∧
    (∀ agent, ts.agents.find? (fun x => x.id == p.agentId) = some agent →
      getAgentStatus ts agent.directory = AgentStatus.complete →
      getAgentStatus (resetAgentStatus ts p.agentId).1 agent.directory = AgentStatus.idle) := by
  refine ⟨?_, ?_, ?_, ?_⟩
  · intro hkind hnd h1 h2
    simp only [resolvePrompt]
    rw [if_neg hnd, hkind]
    split
    next heq => exact absurd heq (by decide)
    next heq => rw [if_neg h1, if_neg h2]
  · intro h
    exact resolvePrompt_dismissed st p choice h
  · intro hkind a
    simp only [resolvePrompt]
    split
    · simp
    · split
      next heq =>
        split
        · simp
        · simp
      next heq =>
        rw [hkind] at heq
        exact absurd heq (by decide)
  · intro agent hf hc
    rw [resetAgentStatus_found_complete ts p.agentId agent hf hc]
    exact getAgentStatus_set_self ts agent.directory AgentStatus.idle

theorem complete_prompt_reset_on_dismiss_witness :
    (resolvePrompt { nextRef := 1, dismissedRefs := [], pendingByAgent := [("A", 0)] }
        { agentId := "A", refId := 0, kind := PromptKind.completePrompt }
        (some "Dismiss")).2 = some (DownstreamAction.resetStatusAct "A") ∧
    getAgentStatus
        (resetAgentStatus
          { agents := [{ id := "A", name := "a", directory := "/a", createdAt := 0 }],
            agentStatuses := [("/a", AgentStatus.complete)] } "A").1 "/a" = AgentStatus.idle :=
  ⟨(complete_prompt_reset_on_dismiss
      { nextRef := 1, dismissedRefs := [], pendingByAgent := [("A", 0)] }
      { agentId := "A", refId := 0, kind := PromptKind.completePrompt } (some "Dismiss")
      { agents := [{ id := "A", name := "a", directory := "/a", createdAt := 0 }],
        agentStatuses := [("/a", AgentStatus.complete)] }).1
    rfl (by decide) (by decide) (by decide),
   (complete_prompt_reset_on_dismiss
      { nextRef := 1, dismissedRefs := [], pendingByAgent := [("A", 0)] }
      { agentId := "A", refId := 0, kind := PromptKind.completePrompt } (some "Dismiss")
      { agents := [{ id := "A", name := "a", directory := "/a", createdAt := 0 }],
        agentStatuses := [("/a", AgentStatus.complete)] }).2.2.2
    { id := "A", name := "a", directory := "/a", createdAt := 0 } (by decide) (by decide)⟩

/- Helper lemmas for the backlog replay. -/

theorem processEventFile_fired_path (fileRead : String → Option HookEvent) (st : WatcherState)
    (p : String) : ∀ pe ∈ (processEventFile fileRead st p).2.1, pe.1 = p := by
  intro pe hpe
  simp only [processEventFile] at hpe
  split at hpe
  · cases hpe
  · split at hpe
    · rw [List.mem_singleton] at hpe
      rw [hpe]
    · cases hpe

theorem processEventFile_cleanup_path (fileRead : String → Option HookEvent) (st : WatcherState)
    (p : String) : ∀ q ∈ (processEventFile fileRead st p).2.2, q = p := by
  intro q hq
  simp only [processEventFile] at hq
  split at hq
  · cases hq
  · split at hq
    · rw [List.mem_singleton] at hq
      exact hq
    · cases hq

theorem backlog_fold_sources (fileRead : String → Option HookEvent) :
    ∀ (sel : List FsFile) (acc : WatcherState × List (String × HookEvent) × List String),
      (∀ pe ∈ (sel.foldl
          (fun (acc : WatcherState × List (String × HookEvent) × List String) f =>
            let r := processEventFile fileRead acc.1 f.name
            (r.1, acc.2.1 ++ r.2.1, acc.2.2 ++ r.2.2)) acc).2.1,
        pe ∈ acc.2.1 ∨ pe.1 ∈ sel.map FsFile.name) ∧
      (∀ q ∈ (sel.foldl
          (fun (acc : WatcherState × List (String × HookEvent) × List String) f =>
            let r := processEventFile fileRead acc.1 f.name
            (r.1, acc.2.1 ++ r.2.1, acc.2.2 ++ r.2.2)) acc).2.2,
        q ∈ acc.2.2 ∨ q ∈ sel.map FsFile.name) := by
  intro sel
  induction sel with
  | nil => exact fun acc => ⟨fun pe hpe => Or.inl hpe, fun q hq => Or.inl hq⟩
  | cons f rest ih =>
      intro acc
      constructor
      · intro pe hpe
        rw [List.foldl_cons] at hpe
        rcases (ih _).1 pe hpe with h | h
        · rcases List.mem_append.mp h with h' | h'
          · exact Or.inl h'
          · right
            have hp := processEventFile_fired_path fileRead acc.1 f.name pe h'
            rw [List.map_cons, hp]
            exact List.mem_cons_self _ _
        · right
          rw [List.map_cons]
          exact List.mem_cons_of_mem _ h
      · intro q hq
        rw [List.foldl_cons] at hq
        rcases (ih _).2 q hq with h | h
        · rcases List.mem_append.mp h with h' | h'
          · exact Or.inl h'
          · right
            have hp := processEventFile_cleanup_path fileRead acc.1 f.name q h'
            rw [List.map_cons, hp]
            exact List.mem_cons_self _ _
        · right
          rw [List.map_cons]
          exact List.mem_cons_of_mem _ h

/-- Claim C9 (amended): on startup the backlog is filtered to .json files,
sorted by modification time descending, and only the most recent 100 are
replayed; every delivered event and every cleanup-scheduled path comes from
that bounded selection, so files older than the bound are neither delivered
as events nor deleted during cleanup. -/
theorem backlog_replay_bound (fileRead : String → Option HookEvent) (files : List FsFile)
    (w : WatcherState) :
    ((backlogSelection files).length ≤ 100) ∧
    (∀ pe ∈ (processExistingEvents fileRead files w).2.1,
       pe.1 ∈ (backlogSelection files).map FsFile.name) ∧
    (∀ q ∈ (processExistingEvents fileRead files w).2.2,
       q ∈ (backlogSelection files).map FsFile.name) ∧
    (∀ f ∈ files.filter (fun f => strEndsWith f.name ".json"), f ∉ backlogSelection files →
       ∀ g ∈ backlogSelection files, f.mtime ≤ g.mtime) := by
  refine ⟨?_, ?_, ?_, ?_⟩
  · rw [backlogSelection, List.length_take]
    exact min_le_left _ _
  · intro pe hpe
    rcases (backlog_fold_sources fileRead (backlogSelection files) (w, [], [])).1 pe hpe
      with h | h
    · cases h
    · exact h
  · intro q hq
    rcases (backlog_fold_sources fileRead (backlogSelection files) (w, [], [])).2 q hq
      with h | h
    · cases h
    · exact h
  · intro f hf hnot g hg
    have hpair : List.Pairwise mtimeDesc
        ((files.filter (fun f => strEndsWith f.name ".json")).insertionSort mtimeDesc) :=
      List.sorted_insertionSort mtimeDesc _
    have hmem : f ∈ (files.filter (fun f => strEndsWith f.name ".json")).insertionSort
        mtimeDesc :=
      ((List.perm_insertionSort mtimeDesc _).mem_iff).mpr hf
    have hsplit := List.take_append_drop 100
      ((files.filter (fun f => strEndsWith f.name ".json")).insertionSort mtimeDesc)
    have hdrop : f ∈ ((files.filter (fun f => strEndsWith f.name ".json")).insertionSort
        mtimeDesc).drop 100 := by
      rcases List.mem_append.mp (hsplit ▸ hmem) with h | h
      · exact absurd h hnot
      · exact h
    rw [← hsplit] at hpair
    exact (List.pairwise_append.mp hpair).2.2 g hg f hdrop

theorem backlog_replay_bound_witness :
    ("a.json" : String) ∈
      (backlogSelection [{ name := "a.json", mtime := 1 }]).map FsFile.name :=
  (backlog_replay_bound
      (fun _ => some { session_id := "s", cwd := "/w", hook_event_name := "Stop" })
      [{ name := "a.json", mtime := 1 }] { processedFiles := [] }).2.1
    ("a.json", { session_id := "s", cwd := "/w", hook_event_name := "Stop" })
    (by decide)

/-- Claim C9 counterexample: with 101 parseable backlog files 0.json (oldest)
through 100.json (newest), the oldest file is present in the listing but the
replay neither delivers it nor schedules it for cleanup, so it is never
deleted — contrary to the claim that files older than the 100-file bound are
still deleted during cleanup. -/
theorem backlog_old_file_not_cleaned_counterexample :
    ({ name := "0.json", mtime := 0 } : FsFile) ∈
      (List.range 101).map (fun i => ({ name := toString i ++ ".json", mtime := i } : FsFile)) ∧
    ("0.json" : String) ∉ (processExistingEvents
        (fun _ => some { session_id := "s", cwd := "/w", hook_event_name := "Stop" })
        ((List.range 101).map (fun i => ({ name := toString i ++ ".json", mtime := i } : FsFile)))
        { processedFiles := [] }).2.2 ∧
    ((processExistingEvents
        (fun _ => some { session_id := "s", cwd := "/w", hook_event_name := "Stop" })
        ((List.range 101).map (fun i => ({ name := toString i ++ ".json", mtime := i } : FsFile)))
        { processedFiles := [] }).2.1.all (fun pe => pe.1 != "0.json")) = true := by
  have hsel : ("0.json" : String) ∉ (backlogSelection
      ((List.range 101).map
        (fun i => ({ name := toString i ++ ".json", mtime := i } : FsFile)))).map
      FsFile.name := by decide
  refine ⟨by decide, ?_, ?_⟩
  · intro hmem
    rcases (backlog_fold_sources
        (fun _ => some { session_id := "s", cwd := "/w", hook_event_name := "Stop" })
        (backlogSelection ((List.range 101).map
          (fun i => ({ name := toString i ++ ".json", mtime := i } : FsFile))))
        ({ processedFiles := [] }, [], [])).2 "0.json" hmem with h | h
    · cases h
    · exact hsel h
  · rw [List.all_eq_true]
    intro pe hpe
    rw [bne_iff_ne]
    intro hname
    rcases (backlog_fold_sources
        (fun _ => some { session_id := "s", cwd := "/w", hook_event_name := "Stop" })
        (backlogSelection ((List.range 101).map
          (fun i => ({ name := toString i ++ ".json", mtime := i } : FsFile))))
        ({ processedFiles := [] }, [], [])).1 pe hpe with h | h
    · cases h
    · exact hsel (hname ▸ h)

/-- Claim C2: for a session directory that is not itself a repository root but
has two non-hidden immediate subdirectories that are independent repository
roots, each reporting one modified file, the aggregated change-set holds two
entries whose paths are prefixed with the respective root's name relative to
the session directory; and a status-query failure on one root still yields
the other root's single entry. -/
theorem multi_root_merge (env : GitEnv) (d n1 n2 f1 f2 : String)
    (hroot : env.isRepoRoot d = false)
    (hsub : env.subdirNames d = [n1, n2])
    (hh1 : strStartsWith n1 "." = false) (hh2 : strStartsWith n2 "." = false)
    (hr1 : env.isRepoRoot (joinPath d n1) = true)
    (hr2 : env.isRepoRoot (joinPath d n2) = true)
    (hs2 : env.statusResult (joinPath d n2) = some [(f2, "M")]) :
    (env.statusResult (joinPath d n1) = some [(f1, "M")] →
      getChangedFiles env d =
        [{ path := n1 ++ "/" ++ f1, status := "M",
           absolutePath := joinPath (joinPath d n1) f1, gitRoot := joinPath d n1 },
         { path := n2 ++ "/" ++ f2, status := "M",
           absolutePath := joinPath (joinPath d n2) f2, gitRoot := joinPath d n2 }]) ∧
    (env.statusResult (joinPath d n1) = none →
      getChangedFiles env d =
        [{ path := n2 ++ "/" ++ f2, status := "M",
           absolutePath := joinPath (joinPath d n2) f2, gitRoot := joinPath d n2 }]) := by
  constructor <;> intro hs1 <;>
    simp [getChangedFiles, hroot, hsub, hh1, hh2, hr1, hr2, hs1, hs2]

theorem multi_root_merge_witness :
    getChangedFiles
        { isRepoRoot := fun p => p == "/s/r1" || p == "/s/r2"
          subdirNames := fun p => if p == "/s" then ["r1", "r2"] else []
          statusResult := fun p =>
            if p == "/s/r1" then some [("a.txt", "M")]
            else if p == "/s/r2" then some [("b.txt", "M")] else none } "/s" =
      [{ path := "r1" ++ "/" ++ "a.txt", status := "M",
         absolutePath := joinPath (joinPath "/s" "r1") "a.txt", gitRoot := joinPath "/s" "r1" },
       { path := "r2" ++ "/" ++ "b.txt", status := "M",
         absolutePath := joinPath (joinPath "/s" "r2") "b.txt", gitRoot := joinPath "/s" "r2" }] ∧
    getChangedFiles
        { isRepoRoot := fun p => p == "/s/r1" || p == "/s/r2"
          subdirNames := fun p => if p == "/s" then ["r1", "r2"] else []
          statusResult := fun p =>
            if p == "/s/r2" then some [("b.txt", "M")] else none } "/s" =
      [{ path := "r2" ++ "/" ++ "b.txt", status := "M",
         absolutePath := joinPath (joinPath "/s" "r2") "b.txt", gitRoot := joinPath "/s" "r2" }] :=
  ⟨(multi_root_merge
      { isRepoRoot := fun p => p == "/s/r1" || p == "/s/r2"
        subdirNames := fun p => if p == "/s" then ["r1", "r2"] else []
        statusResult := fun p =>
          if p == "/s/r1" then some [("a.txt", "M")]
          else if p == "/s/r2" then some [("b.txt", "M")] else none }
      "/s" "r1" "r2" "a.txt" "b.txt"
      (by decide) (by decide) (by decide) (by decide)
      (by decide) (by decide) (by decide)).1 (by decide),
   (multi_root_merge
      { isRepoRoot := fun p => p == "/s/r1" || p == "/s/r2"
        subdirNames := fun p => if p == "/s" then ["r1", "r2"] else []
        statusResult := fun p =>
          if p == "/s/r2" then some [("b.txt", "M")] else none }
      "/s" "r1" "r2" "a.txt" "b.txt"
      (by decide) (by decide) (by decide) (by decide)
      (by decide) (by decide) (by decide)).2 (by decide)⟩
